import Mathlib

/-!
Verification of the git repository updater (update_repos.py and util/):
a shallow embedding of the data model (util/models.py), the git session
wrapper (util/git_operations.py) and the orchestration layer
(src/update_repos.py), together with theorems settling the specification
claims about them.

The external git binary is abstracted as an environment (GitEnv) that fixes
the outcome of each git invocation: either success with captured stdout, or
a GitError carrying a message (modelled as the error side of Except).
Every operation additionally reports the list of git commands it issued, so
that claims of the form "no checkout or pull command is issued" can be
stated about the command trace.
-/

/-- The git invocations the program can issue (util/git_operations.py). -/
inductive GitCmd where
  | revParseAbbrevHead : GitCmd
  | statusPorcelain : GitCmd
  | fetchAllPrune : GitCmd
  | checkout : String → GitCmd
  | pullFfOnly : GitCmd
deriving DecidableEq, Repr

/-- Abstract behaviour of the external git binary for one repository:
for each command, either the captured stdout (success) or the GitError
message raised by GitRepo._run_git (non-zero exit, timeout, missing
binary). -/
structure GitEnv where
  revParse : Except String String
  status : Except String String
  fetch : Except String String
  checkoutRes : String → Except String String
  pullRes : Except String String

/-- Dispatch one git command against the environment
(GitRepo._run_git: returns stdout on success, raises GitError on
failure). -/
def runGit (env : GitEnv) : GitCmd → Except String String
  | GitCmd.revParseAbbrevHead => env.revParse
  | GitCmd.statusPorcelain => env.status
  | GitCmd.fetchAllPrune => env.fetch
  | GitCmd.checkout b => env.checkoutRes b
  | GitCmd.pullFfOnly => env.pullRes

/-- True when the invocation succeeded (no GitError raised). -/
def gitOk (e : Except String String) : Bool :=
  match e with
  | Except.ok _ => true
  | Except.error _ => false

/-- Single-quote character, used to build the f-string messages of the
source without writing a quote character in a string literal. -/
def apos : String := String.singleton (Char.ofNat 39)

/-- Model of Python str.strip with no argument: remove leading and
trailing whitespace. Written by structural recursion over the character
list so that the kernel can evaluate it on literals. -/
def pyStrip (s : String) : String :=
  String.mk (((s.data.dropWhile Char.isWhitespace).reverse.dropWhile Char.isWhitespace).reverse)

/-- Model of Python str.lower (ASCII-relevant part). -/
def pyLower (s : String) : String :=
  String.mk (s.data.map Char.toLower)

/-- Helper for pySplitComma: accumulate the current field in reverse. -/
def pySplitCommaAux : List Char → List Char → List String
  | [], acc => [String.mk acc.reverse]
  | c :: rest, acc =>
    if c = ',' then String.mk acc.reverse :: pySplitCommaAux rest []
    else pySplitCommaAux rest (c :: acc)

/-- Model of Python str.split with separator comma: the empty string
splits to one empty field. -/
def pySplitComma (s : String) : List String := pySplitCommaAux s.data []

/-- Repository configuration (util/models.py, dataclass Repository). -/
structure Repository where
  path : String
  branches : List String
  enabled : Bool
deriving DecidableEq, Repr

/-- Result of updating a single branch (util/models.py, dataclass
UpdateResult). -/
structure UpdateResult where
  repo_path : String
  branch : String
  success : Bool
  message : String
deriving DecidableEq, Repr

/-- UpdateResult.success_result. -/
def UpdateResult.success_result (repo_path branch message : String) : UpdateResult :=
  UpdateResult.mk repo_path branch true message

/-- UpdateResult.failure_result. -/
def UpdateResult.failure_result (repo_path branch message : String) : UpdateResult :=
  UpdateResult.mk repo_path branch false message

/-- A CSV row as handed to Repository.from_csv_row by csv.DictReader:
each of the three known columns is present (some cell text) or absent. -/
structure CsvRow where
  path : Option String
  branches : Option String
  enabled : Option String
deriving DecidableEq, Repr

/-- Repository.from_csv_row (util/models.py): ValueError when the path
field is missing, otherwise trims the path, splits the branches cell on
commas keeping trimmed non-empty entries, and parses the enabled flag
(default cell text "true"; trimmed, lowercased, then compared against
true, yes, 1 and the empty string). -/
def from_csv_row (row : CsvRow) : Except String Repository :=
  match row.path with
  | none => Except.error ("CSV row missing required " ++ apos ++ "path" ++ apos ++ " field")
  | some p =>
    let path := pyStrip p
    let branches_str := pyStrip (row.branches.getD "")
    let branches := ((pySplitComma branches_str).map pyStrip).filter (fun b => !b.isEmpty)
    let enabled_str := pyLower (pyStrip (row.enabled.getD "true"))
    let enabled := ["true", "yes", "1", ""].contains enabled_str
    Except.ok (Repository.mk path branches enabled)

/-- The branch-list check of Repository.validate (util/models.py): an
empty branches list is a validation error, so a repository yielded by
get_enabled_repositories always has a non-empty branches list. -/
def validate_has_branches (r : Repository) : Bool :=
  !r.branches.isEmpty

/-- GitRepo.get_current_branch: rev-parse abbrev-ref HEAD, stdout
stripped; the GitError of a failing invocation propagates (the method
has no handler). Second component: the commands issued. -/
def get_current_branch (env : GitEnv) : Except String String × List GitCmd :=
  ((runGit env GitCmd.revParseAbbrevHead).map pyStrip, [GitCmd.revParseAbbrevHead])

/-- GitRepo.fetch_all: fetch all prune; catches GitError and returns
false instead. -/
def fetch_all (env : GitEnv) : Bool × List GitCmd :=
  (gitOk (runGit env GitCmd.fetchAllPrune), [GitCmd.fetchAllPrune])

/-- GitRepo.checkout: catches GitError and returns false instead. -/
def checkout (env : GitEnv) (branch : String) : Bool × List GitCmd :=
  (gitOk (runGit env (GitCmd.checkout branch)), [GitCmd.checkout branch])

/-- GitRepo.pull: pull ff-only; catches GitError and returns false
instead. -/
def pull (env : GitEnv) : Bool × List GitCmd :=
  (gitOk (runGit env GitCmd.pullFfOnly), [GitCmd.pullFfOnly])

/-- GitRepo.has_uncommitted_changes: true when status porcelain has
non-whitespace output; on GitError, conservatively true. -/
def has_uncommitted_changes (env : GitEnv) : Bool × List GitCmd :=
  (match runGit env GitCmd.statusPorcelain with
    | Except.ok out => !(pyStrip out).isEmpty
    | Except.error _ => true,
   [GitCmd.statusPorcelain])

/-- Message of the checkout-failed outcome of GitRepo.update_branch. -/
def checkoutFailMsg (branch : String) : String :=
  "Failed to checkout branch " ++ apos ++ branch ++ apos

/-- Message of the pull-failed outcome of GitRepo.update_branch. -/
def pullFailMsg (branch : String) : String :=
  "Failed to pull branch " ++ apos ++ branch ++ apos

/-- Message of the success outcome of GitRepo.update_branch. -/
def updatedMsg (branch : String) : String :=
  "Successfully updated " ++ apos ++ branch ++ apos

/-- Warning emitted by GitRepo exit when branch restoration fails. -/
def restoreWarnMsg (branch : String) : String :=
  "Could not restore original branch: " ++ branch

/-- GitRepo.update_branch: checkout then pull, reduced to one
UpdateResult; pull is not attempted when checkout fails. -/
def update_branch (env : GitEnv) (path branch : String) : UpdateResult × List GitCmd :=
  if !(checkout env branch).1 then
    (UpdateResult.failure_result path branch (checkoutFailMsg branch), (checkout env branch).2)
  else if !(pull env).1 then
    (UpdateResult.failure_result path branch (pullFailMsg branch),
      (checkout env branch).2 ++ (pull env).2)
  else
    (UpdateResult.success_result path branch (updatedMsg branch),
      (checkout env branch).2 ++ (pull env).2)

/-- GitRepo enter: records the current branch via get_current_branch;
a GitError from that query propagates out of the with statement (there
is no handler in enter). -/
def gitRepoEnter (env : GitEnv) : Except String String × List GitCmd :=
  get_current_branch env

/-- GitRepo exit: when original_branch is truthy (not None and not the
empty string) attempt to check it out, catching GitError and emitting
only a warning; otherwise do nothing. Returns the commands issued and
the warnings emitted; exit never raises. -/
def gitRepoExit (env : GitEnv) (original_branch : Option String) :
    List GitCmd × List String :=
  match original_branch with
  | none => ([], [])
  | some b =>
    if b.isEmpty then ([], [])
    else
      match runGit env (GitCmd.checkout b) with
      | Except.ok _ => ([GitCmd.checkout b], [])
      | Except.error _ => ([GitCmd.checkout b], [restoreWarnMsg b])

/-- Body of the with block of update_repository (src/update_repos.py):
dirty-tree check, then fetch, then per-branch update; every failure is
reduced to per-branch failure outcomes. -/
def sessionBody (env : GitEnv) (repo : Repository) : List UpdateResult × List GitCmd :=
  if (has_uncommitted_changes env).1 then
    (repo.branches.map (fun b =>
        UpdateResult.failure_result repo.path b "Uncommitted changes present"),
     (has_uncommitted_changes env).2)
  else if !(fetch_all env).1 then
    (repo.branches.map (fun b =>
        UpdateResult.failure_result repo.path b "Failed to fetch remotes"),
     (has_uncommitted_changes env).2 ++ (fetch_all env).2)
  else
    (repo.branches.map (fun b => (update_branch env repo.path b).1),
     (has_uncommitted_changes env).2 ++ (fetch_all env).2
       ++ repo.branches.flatMap (fun b => (update_branch env repo.path b).2))

/-- update_repository (src/update_repos.py): dry-run produces one
success outcome per branch without opening a session; otherwise the
GitRepo context is entered (a GitError from the branch query
propagates, in which case exit does not run), the session body runs,
and exit (branch restoration) runs on every exit path of the body.
Returns the outcome (error = a raised GitError escaping the function),
the full command trace, and the warnings emitted at session release. -/
def update_repository (env : GitEnv) (repo : Repository) (dry_run : Bool) :
    Except String (List UpdateResult) × List GitCmd × List String :=
  if dry_run then
    (Except.ok (repo.branches.map (fun b =>
        UpdateResult.success_result repo.path b "[DRY RUN] Would update")), [], [])
  else
    match (gitRepoEnter env).1 with
    | Except.error e => (Except.error e, (gitRepoEnter env).2, [])
    | Except.ok ob =>
      (Except.ok (sessionBody env repo).1,
       (gitRepoEnter env).2 ++ (sessionBody env repo).2 ++ (gitRepoExit env (some ob)).1,
       (gitRepoExit env (some ob)).2)

/-- The repository-processing loop of main (src/update_repos.py): each
enabled repository is processed in order with its own git environment;
a raised GitError aborts the loop (main catches only FileNotFoundError
and KeyboardInterrupt). -/
def process_repositories (dry_run : Bool) :
    List (Repository × GitEnv) → Except String (List UpdateResult)
  | [] => Except.ok []
  | (r, env) :: rest =>
    match (update_repository env r dry_run).1 with
    | Except.error e => Except.error e
    | Except.ok rs =>
      match process_repositories dry_run rest with
      | Except.error e => Except.error e
      | Except.ok more => Except.ok (rs ++ more)

/-- Exit-code computation of main (src/update_repos.py) after the
repository loop: 0 when no enabled repository was found, otherwise 1
when any outcome failed and 0 when none did. An error value models a
GitError escaping the loop (an uncaught exception, no normal return). -/
def mainExitCode (dry_run : Bool) (repos : List (Repository × GitEnv)) :
    Except String Nat :=
  match process_repositories dry_run repos with
  | Except.error e => Except.error e
  | Except.ok all_results =>
    if repos.length = 0 then Except.ok 0
    else Except.ok (if 0 < all_results.countP (fun r => !r.success) then 1 else 0)

/-! ## Concrete environments and configurations used as test inputs -/

/-- Environment where every git invocation succeeds; the working tree is
clean and the current branch is main. -/
def envAllOk : GitEnv :=
  GitEnv.mk (Except.ok "main\n") (Except.ok "") (Except.ok "")
    (fun _ => Except.ok "") (Except.ok "")

/-- Environment where the branch query rev-parse abbrev-ref HEAD fails. -/
def envEnterFail : GitEnv :=
  GitEnv.mk (Except.error "fatal: not a git repository") (Except.ok "") (Except.ok "")
    (fun _ => Except.ok "") (Except.ok "")

/-- Environment where the branch query succeeds but the working tree is
dirty (status porcelain reports a modified file). -/
def envDirty : GitEnv :=
  GitEnv.mk (Except.ok "main\n") (Except.ok " M file.txt") (Except.ok "")
    (fun _ => Except.ok "") (Except.ok "")

/-- Environment where the branch query succeeds and every other
invocation (status, fetch, checkout, pull) fails. -/
def envAllFail : GitEnv :=
  GitEnv.mk (Except.ok "main\n") (Except.error "boom") (Except.error "boom")
    (fun _ => Except.error "boom") (Except.error "boom")

/-- Environment where everything succeeds except checkout, so the
release-time restoration of the original branch fails. -/
def envRestoreFail : GitEnv :=
  GitEnv.mk (Except.ok "main\n") (Except.ok "") (Except.ok "")
    (fun _ => Except.error "boom") (Except.ok "")

/-- A configuration asking for the single branch main. -/
def repoMain : Repository := Repository.mk "/r1" ["main"] true

/-! ## Helper lemmas -/

/-- Every successful return of update_repository carries one outcome per
requested branch: the result list is a map over the branches sequence. -/
theorem update_repository_ok_shape (env : GitEnv) (repo : Repository) (dry_run : Bool)
    (rs : List UpdateResult)
    (h : (update_repository env repo dry_run).1 = Except.ok rs) :
    ∃ f : String → UpdateResult, rs = repo.branches.map f := by
  by_cases hd : dry_run = true
  · subst hd
    simp only [update_repository, if_true] at h
    exact ⟨_, (Except.ok.injEq _ _).mp h.symm⟩
  · replace hd : dry_run = false := by
      cases dry_run
      · rfl
      · exact absurd rfl hd
    subst hd
    simp only [update_repository, Bool.false_eq_true, if_false] at h
    cases he : (gitRepoEnter env).1 with
    | error e => rw [he] at h; exact absurd h (by simp)
    | ok ob =>
      rw [he] at h
      simp only [Except.ok.injEq] at h
      subst h
      unfold sessionBody
      by_cases h1 : (has_uncommitted_changes env).1 = true
      · rw [if_pos h1]; exact ⟨_, rfl⟩
      · rw [if_neg h1]
        by_cases h2 : (!(fetch_all env).1) = true
        · rw [if_pos h2]; exact ⟨_, rfl⟩
        · rw [if_neg h2]; exact ⟨_, rfl⟩

/-- Length form of the previous lemma. -/
theorem update_repository_ok_length (env : GitEnv) (repo : Repository) (dry_run : Bool)
    (rs : List UpdateResult)
    (h : (update_repository env repo dry_run).1 = Except.ok rs) :
    rs.length = repo.branches.length := by
  obtain ⟨f, rfl⟩ := update_repository_ok_shape env repo dry_run rs h
  exact List.length_map _ _

/-- Closed form of the session release when the recorded original
branch is non-empty: one restoration checkout, and a warning exactly
when that checkout fails. -/
theorem gitRepoExit_eq (env : GitEnv) (ob : String) (h : ob.isEmpty = false) :
    gitRepoExit env (some ob) =
      ([GitCmd.checkout ob],
       if gitOk (runGit env (GitCmd.checkout ob)) then [] else [restoreWarnMsg ob]) := by
  cases hr : runGit env (GitCmd.checkout ob) <;>
    simp [gitRepoExit, h, hr, gitOk]

/-- The session release issues no command when the recorded original
branch is empty. -/
theorem gitRepoExit_empty (env : GitEnv) :
    gitRepoExit env (some "") = ([], []) := rfl

/-- Every command issued by the session release is the restoration
checkout of the recorded original branch. -/
theorem gitRepoExit_cmds_sub (env : GitEnv) (ob : String) (c : GitCmd)
    (h : c ∈ (gitRepoExit env (some ob)).1) : c = GitCmd.checkout ob := by
  by_cases he : ob.isEmpty = true
  · rw [(String.isEmpty_iff ob).mp he] at h
    rw [gitRepoExit_empty env] at h
    exact absurd h (List.not_mem_nil c)
  · rw [gitRepoExit_eq env ob (by simpa using he)] at h
    simpa using h

/-- The session acquisition issues exactly the branch query. -/
theorem gitRepoEnter_cmds (env : GitEnv) :
    (gitRepoEnter env).2 = [GitCmd.revParseAbbrevHead] := rfl

/-- The dirty-tree check issues exactly the status query. -/
theorem has_uncommitted_cmds (env : GitEnv) :
    (has_uncommitted_changes env).2 = [GitCmd.statusPorcelain] := rfl

/-! ## Claim theorems -/

/-- Claim C6: in dry-run mode update_repository issues no git command,
opens no session, and yields exactly one success outcome per requested
branch with message DRY RUN Would update. -/
theorem claim_C6_dry_run (env : GitEnv) (repo : Repository) :
    update_repository env repo true =
      (Except.ok (repo.branches.map (fun b =>
          UpdateResult.success_result repo.path b "[DRY RUN] Would update")),
       [], []) := by
  simp [update_repository]

/-- Claim C4: update_branch returns exactly one outcome; when checkout
fails it is the checkout failure outcome and pull is never invoked;
when checkout succeeds but pull fails it is the pull failure outcome;
otherwise it is the success outcome. -/
theorem claim_C4_update_branch (env : GitEnv) (path branch : String) :
    ((checkout env branch).1 = false →
      update_branch env path branch =
        (UpdateResult.failure_result path branch (checkoutFailMsg branch),
         [GitCmd.checkout branch]) ∧
      GitCmd.pullFfOnly ∉ (update_branch env path branch).2) ∧
    ((checkout env branch).1 = true → (pull env).1 = false →
      update_branch env path branch =
        (UpdateResult.failure_result path branch (pullFailMsg branch),
         [GitCmd.checkout branch, GitCmd.pullFfOnly])) ∧
    ((checkout env branch).1 = true → (pull env).1 = true →
      update_branch env path branch =
        (UpdateResult.success_result path branch (updatedMsg branch),
         [GitCmd.checkout branch, GitCmd.pullFfOnly])) := by
  refine ⟨fun hc => ?_, fun hc hp => ?_, fun hc hp => ?_⟩
  · have hc2 : gitOk (runGit env (GitCmd.checkout branch)) = false := hc
    constructor
    · simp [update_branch, checkout, hc2]
    · simp [update_branch, checkout, hc2]
  · have hc2 : gitOk (runGit env (GitCmd.checkout branch)) = true := hc
    have hp2 : gitOk (runGit env GitCmd.pullFfOnly) = false := hp
    simp [update_branch, checkout, pull, hc2, hp2]
  · have hc2 : gitOk (runGit env (GitCmd.checkout branch)) = true := hc
    have hp2 : gitOk (runGit env GitCmd.pullFfOnly) = true := hp
    simp [update_branch, checkout, pull, hc2, hp2]

/-- Claim C4 witness: concrete run where checkout fails. -/
theorem claim_C4_witness :
    update_branch envAllFail "/r1" "main" =
      (UpdateResult.failure_result "/r1" "main" (checkoutFailMsg "main"),
       [GitCmd.checkout "main"]) ∧
    GitCmd.pullFfOnly ∉ (update_branch envAllFail "/r1" "main").2 :=
  (claim_C4_update_branch envAllFail "/r1" "main").1 rfl

/-- Claim C1 counterexample: with a failing branch query at session
acquisition, a GitError is propagated as a raised exception out of
update_repository (the orchestrator), refuting the claim that no
GitError ever escapes it. -/
theorem claim_C1_counterexample :
    (update_repository envEnterFail repoMain false).1 =
      Except.error "fatal: not a git repository" := rfl

/-- Claim C1 amended: provided the session-acquisition branch query
succeeds, every failure of the status query, fetch, checkout or pull
is converted into boolean returns or failure outcomes and
update_repository returns normally: no GitError escapes it. -/
theorem claim_C1_amended (env : GitEnv) (repo : Repository)
    (h : gitOk (runGit env GitCmd.revParseAbbrevHead) = true) :
    ∃ rs, (update_repository env repo false).1 = Except.ok rs := by
  cases hr : runGit env GitCmd.revParseAbbrevHead with
  | error e => rw [hr] at h; exact absurd h (by simp [gitOk])
  | ok out =>
    refine ⟨(sessionBody env repo).1, ?_⟩
    simp [update_repository, gitRepoEnter, get_current_branch, hr, Except.map]

/-- Claim C1 witness: every git invocation except the branch query
fails, yet update_repository returns normally. -/
theorem claim_C1_witness :
    ∃ rs, (update_repository envAllFail repoMain false).1 = Except.ok rs :=
  claim_C1_amended envAllFail repoMain rfl

/-- Claim C2 counterexample: when the branch query fails at session
acquisition, the session does not open: GitRepo enter raises instead
of opening with an unknown original branch. -/
theorem claim_C2_counterexample :
    envEnterFail.revParse = Except.error "fatal: not a git repository" ∧
    gitOk (gitRepoEnter envEnterFail).1 = false :=
  ⟨rfl, rfl⟩

/-- Claim C2 amended: when the session-acquisition branch query fails,
session acquisition itself fails: the GitError propagates unchanged out
of update_repository, only the branch query was issued, and no
restoration step or warning occurs. -/
theorem claim_C2_amended (env : GitEnv) (repo : Repository) (m : String)
    (h : env.revParse = Except.error m) :
    update_repository env repo false =
      (Except.error m, [GitCmd.revParseAbbrevHead], []) := by
  simp [update_repository, gitRepoEnter, get_current_branch, runGit, h, Except.map]

/-- Claim C2 witness: concrete failing branch query. -/
theorem claim_C2_witness :
    update_repository envEnterFail repoMain false =
      (Except.error "fatal: not a git repository", [GitCmd.revParseAbbrevHead], []) :=
  claim_C2_amended envEnterFail repoMain "fatal: not a git repository" rfl

/-- Claim C3 counterexample: when the session-acquisition branch query
raises, update_repository produces no outcome list at all, so no list
of outcomes of length equal to the branches sequence exists. -/
theorem claim_C3_counterexample :
    ¬ ∃ rs : List UpdateResult,
        (update_repository envEnterFail repoMain false).1 = Except.ok rs ∧
        rs.length = repoMain.branches.length := by
  rintro ⟨rs, h, -⟩
  rw [show (update_repository envEnterFail repoMain false).1 =
        Except.error "fatal: not a git repository" from rfl] at h
  exact Except.noConfusion h

/-- Claim C3 amended: whenever update_repository returns an outcome
list (dry-run, or the session-acquisition branch query succeeded), the
list has exactly one outcome per entry of the branches sequence,
duplicates included, wherever in the pipeline failure occurred. -/
theorem claim_C3_outcome_count (env : GitEnv) (repo : Repository) (dry_run : Bool)
    (rs : List UpdateResult)
    (h : (update_repository env repo dry_run).1 = Except.ok rs) :
    rs.length = repo.branches.length :=
  update_repository_ok_length env repo dry_run rs h

/-- Claim C3 witness: concrete run with every git invocation failing
after acquisition still yields one outcome per branch. -/
theorem claim_C3_witness :
    ([UpdateResult.failure_result "/r1" "main" "Uncommitted changes present"]).length =
      repoMain.branches.length :=
  claim_C3_outcome_count envAllFail repoMain false _ rfl

/-- Claim C10: a session whose recorded original branch is the empty
string releases exactly like one with no recorded branch: no git
command is issued and no warning is emitted. -/
theorem claim_C10_empty_original (env : GitEnv) :
    gitRepoExit env (some "") = ([], []) ∧
    gitRepoExit env (some "") = gitRepoExit env none :=
  ⟨rfl, rfl⟩

/-- Claim C7 counterexample: on a dirty repository whose current branch
is also a requested branch, a checkout command naming that requested
branch is issued (the release-time restoration), refuting the claim
that no checkout command is issued for any requested branch. -/
theorem claim_C7_counterexample :
    (has_uncommitted_changes envDirty).1 = true ∧
    "main" ∈ repoMain.branches ∧
    GitCmd.checkout "main" ∈ (update_repository envDirty repoMain false).2.1 := by
  refine ⟨by decide, by decide, by decide⟩

/-- Claim C7 amended: on a dirty repository the outcomes are exactly one
failure per requested branch with message Uncommitted changes present,
no fetch and no pull command is issued, and the only checkout command
possibly issued is the release-time restoration of the original
branch (whose name may coincide with a requested branch). -/
theorem claim_C7_dirty (env : GitEnv) (repo : Repository) (ob : String)
    (henter : (gitRepoEnter env).1 = Except.ok ob)
    (hdirty : (has_uncommitted_changes env).1 = true) :
    (update_repository env repo false).1 =
      Except.ok (repo.branches.map (fun b =>
        UpdateResult.failure_result repo.path b "Uncommitted changes present")) ∧
    GitCmd.fetchAllPrune ∉ (update_repository env repo false).2.1 ∧
    GitCmd.pullFfOnly ∉ (update_repository env repo false).2.1 ∧
    ∀ b, GitCmd.checkout b ∈ (update_repository env repo false).2.1 → b = ob := by
  have hrepo : update_repository env repo false =
      (Except.ok (sessionBody env repo).1,
       GitCmd.revParseAbbrevHead :: ((sessionBody env repo).2 ++ (gitRepoExit env (some ob)).1),
       (gitRepoExit env (some ob)).2) := by
    simp [update_repository, henter, gitRepoEnter_cmds]
  have hbody2 : (sessionBody env repo).2 = [GitCmd.statusPorcelain] := by
    simp [sessionBody, hdirty, has_uncommitted_cmds]
  have hbody1 : (sessionBody env repo).1 = repo.branches.map (fun b =>
      UpdateResult.failure_result repo.path b "Uncommitted changes present") := by
    simp [sessionBody, hdirty]
  have htrace : (update_repository env repo false).2.1 =
      GitCmd.revParseAbbrevHead :: ([GitCmd.statusPorcelain] ++ (gitRepoExit env (some ob)).1) := by
    rw [hrepo, ← hbody2]
  refine ⟨?_, ?_, ?_, ?_⟩
  · rw [hrepo]
    exact congrArg Except.ok hbody1
  · rw [htrace]
    intro hmem
    rcases List.mem_cons.mp hmem with h1 | h2
    · exact GitCmd.noConfusion h1
    rcases List.mem_append.mp h2 with h3 | h4
    · exact GitCmd.noConfusion (List.mem_singleton.mp h3)
    · exact GitCmd.noConfusion (gitRepoExit_cmds_sub env ob _ h4)
  · rw [htrace]
    intro hmem
    rcases List.mem_cons.mp hmem with h1 | h2
    · exact GitCmd.noConfusion h1
    rcases List.mem_append.mp h2 with h3 | h4
    · exact GitCmd.noConfusion (List.mem_singleton.mp h3)
    · exact GitCmd.noConfusion (gitRepoExit_cmds_sub env ob _ h4)
  · intro b hmem
    rw [htrace] at hmem
    rcases List.mem_cons.mp hmem with h1 | h2
    · exact GitCmd.noConfusion h1
    rcases List.mem_append.mp h2 with h3 | h4
    · exact GitCmd.noConfusion (List.mem_singleton.mp h3)
    · exact GitCmd.checkout.inj (gitRepoExit_cmds_sub env ob _ h4)

/-- Claim C7 witness: concrete dirty repository requesting main while
main is checked out. -/
theorem claim_C7_witness :
    (update_repository envDirty repoMain false).1 =
      Except.ok (repoMain.branches.map (fun b =>
        UpdateResult.failure_result repoMain.path b "Uncommitted changes present")) ∧
    GitCmd.fetchAllPrune ∉ (update_repository envDirty repoMain false).2.1 ∧
    GitCmd.pullFfOnly ∉ (update_repository envDirty repoMain false).2.1 ∧
    ∀ b, GitCmd.checkout b ∈ (update_repository envDirty repoMain false).2.1 → b = "main" :=
  claim_C7_dirty envDirty repoMain "main" rfl rfl

/-- Claim C8: whenever the session opens with a non-empty recorded
original branch, update_repository ends every exit path with the
restoration checkout of that branch, returns normally (release never
raises), and emits exactly one warning when the restoration checkout
fails and none when it succeeds. -/
theorem claim_C8_release (env : GitEnv) (repo : Repository) (ob : String)
    (henter : (gitRepoEnter env).1 = Except.ok ob) (hob : ob ≠ "") :
    ∃ rs bodyCmds,
      update_repository env repo false =
        (Except.ok rs,
         GitCmd.revParseAbbrevHead :: (bodyCmds ++ [GitCmd.checkout ob]),
         if gitOk (runGit env (GitCmd.checkout ob)) then [] else [restoreWarnMsg ob]) := by
  have hne : ob.isEmpty = false := by
    cases hi : ob.isEmpty
    · rfl
    · exact absurd ((String.isEmpty_iff ob).mp hi) hob
  have hexit := gitRepoExit_eq env ob hne
  refine ⟨(sessionBody env repo).1, (sessionBody env repo).2, ?_⟩
  simp [update_repository, henter, hexit, gitRepoEnter_cmds]

/-- Claim C8 witness: concrete run where the restoration checkout
fails; the run still returns normally with only a warning. -/
theorem claim_C8_witness :
    ∃ rs bodyCmds,
      update_repository envRestoreFail repoMain false =
        (Except.ok rs,
         GitCmd.revParseAbbrevHead :: (bodyCmds ++ [GitCmd.checkout "main"]),
         if gitOk (runGit envRestoreFail (GitCmd.checkout "main")) then []
         else [restoreWarnMsg "main"]) :=
  claim_C8_release envRestoreFail repoMain "main" rfl (by decide)

/-- A non-empty repository list that processes to completion yields at
least one outcome, because the first repository passed validation and
contributes one outcome per branch. -/
theorem process_repositories_pos (dry_run : Bool) (r : Repository) (env : GitEnv)
    (rest : List (Repository × GitEnv)) (all_results : List UpdateResult)
    (h : process_repositories dry_run ((r, env) :: rest) = Except.ok all_results)
    (hb : validate_has_branches r = true) : 0 < all_results.length := by
  unfold process_repositories at h
  cases hu : (update_repository env r dry_run).1 with
  | error e => rw [hu] at h; exact absurd h (by simp)
  | ok rs =>
    rw [hu] at h
    cases hrest : process_repositories dry_run rest with
    | error e => rw [hrest] at h; exact absurd h (by simp)
    | ok more =>
      rw [hrest] at h
      simp only [Except.ok.injEq] at h
      subst h
      have hlen := update_repository_ok_length env r dry_run rs hu
      have hne : r.branches ≠ [] := by
        intro hnil
        rw [validate_has_branches, hnil] at hb
        simp at hb
      have hpos : 0 < rs.length := by
        rw [hlen]
        cases hbr : r.branches with
        | nil => exact absurd hbr hne
        | cons a l => simp
      rw [List.length_append]
      omega

/-- Claim C5: for a run that completes (no interruption,
configuration-file error, or uncaught GitError), the exit status is 0
exactly when either some outcomes were produced and none failed, or no
repository was enabled; otherwise it is 1. Validation guarantees every
processed repository requests at least one branch. -/
theorem claim_C5_exit_code (dry_run : Bool) (repos : List (Repository × GitEnv))
    (all_results : List UpdateResult)
    (hrun : process_repositories dry_run repos = Except.ok all_results)
    (hval : ∀ p ∈ repos, validate_has_branches p.1 = true) :
    mainExitCode dry_run repos =
      Except.ok (if (0 < all_results.length ∧
                     all_results.countP (fun r => !r.success) = 0) ∨ repos.length = 0
                 then 0 else 1) := by
  have hmain : mainExitCode dry_run repos =
      (if repos.length = 0 then Except.ok 0
       else Except.ok (if 0 < all_results.countP (fun r => !r.success) then 1 else 0)) := by
    unfold mainExitCode
    rw [hrun]
  rw [hmain]
  cases repos with
  | nil =>
    have hall : all_results = [] := by
      unfold process_repositories at hrun
      exact ((Except.ok.injEq _ _).mp hrun).symm
    subst hall
    simp
  | cons p rest =>
    obtain ⟨r, env⟩ := p
    have hpos : 0 < all_results.length :=
      process_repositories_pos dry_run r env rest all_results hrun
        (hval (r, env) (List.mem_cons_self _ _))
    rw [if_neg (by simp)]
    by_cases hf : 0 < all_results.countP (fun r => !r.success)
    · have hcond : ¬((0 < all_results.length ∧
          all_results.countP (fun r => !r.success) = 0) ∨
          ((r, env) :: rest : List (Repository × GitEnv)).length = 0) := by
        rintro (⟨-, h0⟩ | hnil)
        · omega
        · simp at hnil
      rw [if_pos hf, if_neg hcond]
    · have h0 : all_results.countP (fun r => !r.success) = 0 := by omega
      rw [if_neg hf, if_pos (Or.inl ⟨hpos, h0⟩)]

/-- Claim C5 witness: one enabled repository in dry-run mode. -/
theorem claim_C5_witness :
    mainExitCode true [(repoMain, envAllOk)] =
      Except.ok
        (if (0 < ([UpdateResult.success_result "/r1" "main" "[DRY RUN] Would update"]).length ∧
             ([UpdateResult.success_result "/r1" "main" "[DRY RUN] Would update"]).countP
               (fun r => !r.success) = 0) ∨
            ([(repoMain, envAllOk)] : List (Repository × GitEnv)).length = 0
         then 0 else 1) :=
  claim_C5_exit_code true [(repoMain, envAllOk)]
    [UpdateResult.success_result "/r1" "main" "[DRY RUN] Would update"] rfl
    (fun p hp => by
      have hp2 := List.mem_singleton.mp hp
      subst hp2
      rfl)

/-- Claim C9: the parsed enabled flag of a configuration row is true
exactly when the column is absent, or the trimmed lowercased cell is
true, yes, 1 or the empty string; every other value parses to false. -/
theorem claim_C9_enabled (row : CsvRow) (r : Repository)
    (h : from_csv_row row = Except.ok r) :
    r.enabled = true ↔
      (row.enabled = none ∨
       ∃ s, row.enabled = some s ∧
         pyLower (pyStrip s) ∈ (["true", "yes", "1", ""] : List String)) := by
  unfold from_csv_row at h
  cases hp : row.path with
  | none => rw [hp] at h; exact absurd h (by simp)
  | some p =>
    rw [hp] at h
    simp only [Except.ok.injEq] at h
    subst h
    cases he : row.enabled with
    | none =>
      constructor
      · intro _
        exact Or.inl rfl
      · intro _
        show ["true", "yes", "1", ""].contains
          (pyLower (pyStrip ((none : Option String).getD "true"))) = true
        decide
    | some s =>
      simp only [he, Option.getD, Option.some.injEq]
      constructor
      · intro hc
        refine Or.inr ⟨s, rfl, ?_⟩
        simpa using hc
      · rintro (hnone | ⟨s2, hs2, hmem⟩)
        · exact Option.noConfusion hnone
        · subst hs2
          simpa using hmem

/-- Claim C9 witness: a row with enabled cell YES surrounded by blanks
parses to an enabled repository. -/
theorem claim_C9_witness :
    (Repository.mk "/r1" ["main"] true).enabled = true ↔
      ((CsvRow.mk (some "/r1") (some "main") (some " YES ")).enabled = none ∨
       ∃ s, (CsvRow.mk (some "/r1") (some "main") (some " YES ")).enabled = some s ∧
         pyLower (pyStrip s) ∈ (["true", "yes", "1", ""] : List String)) :=
  claim_C9_enabled (CsvRow.mk (some "/r1") (some "main") (some " YES "))
    (Repository.mk "/r1" ["main"] true) rfl
